import Mathlib

/-!
Verification of the capoeira song manager against its specification.

The development shallowly embeds:

* the hand-rolled CSV parser `parseCSV` and the import pipeline
  `handleFileChange` of the import modal component (`ImportModal`);
* the CSV serializer `handleExport` of the Home page;
* the row-level-security policy layer declared by the SQL migration
  `20251016170521_create_songs_and_settings_tables.sql`.

JavaScript strings are modelled as Lean `String`s and the parser state
machine walks the underlying character list.  A thrown exception is
modelled with `Except String`.  Separate `spec…` definitions transcribe
the specification's own wording of the serializer and of the parsing scan,
so that refinement claims can compare them with the code's behaviour.
-/

namespace Capoeira

/-! ## JavaScript string primitives

`toLowerCase` and `trim` are modelled character-wise (the header cells
the import pipeline applies them to are plain ASCII). -/

/-- JavaScript `String.prototype.toLowerCase`, character by character. -/
def jsToLower (s : String) : String :=
  String.mk (s.data.map Char.toLower)

/-- JavaScript `String.prototype.trim`: strip leading and trailing
whitespace. -/
def jsTrim (s : String) : String :=
  String.mk (((s.data.dropWhile Char.isWhitespace).reverse.dropWhile
    Char.isWhitespace).reverse)

/-! ## CSV parser (`parseCSV`, ImportModal lines 24–85)

The source maintains mutable state `result`, `row`, `inQuotes`,
`currentValue` and an index `i` over the text with one character of
lookahead (`nextChar = text[i + 1]`).  We model the loop as a structural
recursion over the remaining character list, pattern-matching jointly on
`inQuotes` and the next one or two characters; the flush at a row
terminator (`if (currentValue || row.length > 0) { … }`, lines 42–45) and
the identical flush after the loop (lines 79–82) are factored into
`flushRow`. -/

/-- Flush of the pending field and row:
`if (currentValue || row.length > 0) { row.push(currentValue); result.push(row); }`. -/
def flushRow (cur : List Char) (row : List String) (res : List (List String)) :
    List (List String) :=
  if cur = [] ∧ row = [] then res else res ++ [row ++ [String.mk cur]]

/-- Parser loop of `parseCSV` (lines 31–76).  The arguments mirror the
mutable variables `inQuotes`, `currentValue`, `row`, `result`; the final
argument is the unread suffix of the input.  A `'\r'` whose lookahead is
`'\n'` consumes both characters (the `i++` skip at lines 49–52) in both
quote states, exactly as in the source, where that skip sits outside the
`inQuotes` conditional.  A `'"'` while quoted whose lookahead is another
`'"'` emits one literal quote and consumes both (lines 56–59); otherwise a
quote toggles the quoted state (lines 60–63). -/
def parseAux : Bool → List Char → List String → List (List String) →
    List Char → List (List String)
  | _, cur, row, res, [] => flushRow cur row res
  | true, cur, row, res, '\r' :: '\n' :: cs =>
    parseAux true (cur ++ ['\r']) row res cs
  | true, cur, row, res, '\r' :: cs =>
    parseAux true (cur ++ ['\r']) row res cs
  | false, cur, row, res, '\r' :: '\n' :: cs =>
    parseAux false [] [] (flushRow cur row res) cs
  | false, cur, row, res, '\r' :: cs =>
    parseAux false [] [] (flushRow cur row res) cs
  | true, cur, row, res, '\n' :: cs =>
    parseAux true (cur ++ ['\n']) row res cs
  | false, cur, row, res, '\n' :: cs =>
    parseAux false [] [] (flushRow cur row res) cs
  | true, cur, row, res, '"' :: '"' :: cs =>
    parseAux true (cur ++ ['"']) row res cs
  | true, cur, row, res, '"' :: cs =>
    parseAux false cur row res cs
  | false, cur, row, res, '"' :: cs =>
    parseAux true cur row res cs
  | true, cur, row, res, ',' :: cs =>
    parseAux true (cur ++ [',']) row res cs
  | false, cur, row, res, ',' :: cs =>
    parseAux false [] (row ++ [String.mk cur]) res cs
  | iq, cur, row, res, c :: cs =>
    parseAux iq (cur ++ [c]) row res cs

/-- CSV parser `parseCSV` (line 24): run the loop on the whole text with
initial state `result = []`, `row = []`, `inQuotes = false`,
`currentValue = ''`. -/
def parseCSV (text : String) : List (List String) :=
  parseAux false [] [] [] text.data

/-! ## Secondary un-quoting pass (ImportModal line 115)

`value.replace(/^"|"$/g, '').replace(/""/g, '"')`: remove one leading and
one trailing double quote if present (the global regex consumes the
leading match before looking for the trailing one), then collapse every
doubled double quote, scanning left to right. -/

/-- First half of `/^"|"$/g`: drop one leading `'"'` if present. -/
def stripLeadingQuote : List Char → List Char
  | '"' :: cs => cs
  | cs => cs

/-- Second half of `/^"|"$/g`: drop one trailing `'"'` if present. -/
def stripTrailingQuote (cs : List Char) : List Char :=
  if cs.getLast? = some '"' then cs.dropLast else cs

/-- Replacement `/""/g → '"'`: collapse doubled quotes, left to right. -/
def undoubleQuotes : List Char → List Char
  | '"' :: '"' :: cs => '"' :: undoubleQuotes cs
  | c :: cs => c :: undoubleQuotes cs
  | [] => []

/-- The full secondary un-quoting pass applied to each parsed field value. -/
def unquoteValue (s : String) : String :=
  String.mk (undoubleQuotes (stripTrailingQuote (stripLeadingQuote s.data)))

/-! ## Row-to-record mapping and validation (ImportModal lines 92–135) -/

/-- A parsed song record: the JavaScript object built by
`song[header.trim()] = value`, as the ordered list of its assignments. -/
abbrev SongFields := List (String × String)

/-- The `headers.forEach((header, index) => …)` loop (lines 113–117):
each header, already lowercased and trimmed, is assigned
`values[index] || ''` after the secondary un-quoting pass. -/
def buildFields (headers values : List String) : SongFields :=
  headers.enum.map (fun p => (jsTrim p.2, unquoteValue (values.getD p.1 "")))

/-- Property lookup on the built object: the last assignment to a key
wins, as for a JavaScript object; a key never assigned reads as
`undefined`, modelled by `none`. -/
def getField (f : SongFields) (key : String) : Option String :=
  f.reverse.lookup key

/-- JavaScript truthiness of a string-or-undefined property: `undefined`
and the empty string are falsy. -/
def truthy : Option String → Bool
  | some s => !(s == "")
  | none => false

/-- The category whitelist of the import validation (line 123):
`['angola', 'saoBentoPequeno', 'saoBentoGrande']`. -/
def validCategories : List String :=
  ["angola", "saoBentoPequeno", "saoBentoGrande"]

/-- The check `['angola', 'saoBentoPequeno', 'saoBentoGrande'].includes(song.category)`;
an absent property (`undefined`) is not in the list. -/
def categoryIncluded : Option String → Bool
  | some s => validCategories.contains s
  | none => false

/-- Template-literal rendering of `song.category` inside the error
message: JavaScript prints `undefined` for an absent property. -/
def showCategory : Option String → String
  | some s => s
  | none => "undefined"

/-- Error thrown at line 101 when fewer than two rows were parsed. -/
def errMinRows : String :=
  "Le fichier CSV doit contenir au moins un en-tête et une ligne de données"

/-- Error thrown at line 107 when a required header column is missing. -/
def errColumns : String :=
  "Le fichier CSV doit contenir au moins les colonnes \"title\" et \"category\""

/-- Error thrown at line 120 when both title and mnemonic are falsy. -/
def errTitleLine (line : Nat) : String :=
  "Le titre ou la phrase mnémotechnique est obligatoire à la ligne " ++
    toString line

/-- Error thrown at line 124 for an invalid category. -/
def errCategoryLine (line : Nat) (cat : Option String) : String :=
  "Catégorie invalide à la ligne " ++ toString line ++ ": \"" ++
    showCategory cat ++
    "\"\nCatégories valides : angola, saoBentoPequeno, saoBentoGrande"

/-- Body of the `rows.slice(1).map((values, rowIndex) => …)` callback
(lines 110–128): build the record, then validate title/mnemonic presence
and the category enumeration, reporting `rowIndex + 2` as the line
number. -/
def mapRow (headers values : List String) (rowIndex : Nat) :
    Except String SongFields :=
  let song := buildFields headers values
  if !truthy (getField song "title") && !truthy (getField song "mnemonic") then
    .error (errTitleLine (rowIndex + 2))
  else if !categoryIncluded (getField song "category") then
    .error (errCategoryLine (rowIndex + 2) (getField song "category"))
  else
    .ok song

/-- JavaScript `Array.prototype.map` with a throwing callback over the
data rows, carrying the running `rowIndex`: the first thrown error aborts
the whole traversal. -/
def mapRows (headers : List String) :
    List (List String) → Nat → Except String (List SongFields)
  | [], _ => .ok []
  | values :: rest, i => do
    let song ← mapRow headers values i
    let songs ← mapRows headers rest (i + 1)
    pure (song :: songs)

/-- The header cells `rows[0].map(h => h.toLowerCase().trim())`
(line 104). -/
def headerCells (rows : List (List String)) : List String :=
  (rows.headD []).map (fun h => jsTrim (jsToLower h))

/-- The import pipeline `handleFileChange` (lines 92–135) as a pure
function from the uploaded text to either the thrown error message or the
list of song records handed to `onImport`. -/
def handleFileChange (text : String) : Except String (List SongFields) :=
  let rows := parseCSV text
  if rows.length < 2 then
    .error errMinRows
  else
    let headers := headerCells rows
    if !(headers.contains "title") || !(headers.contains "category") then
      .error errColumns
    else
      mapRows headers (rows.drop 1) 0

/-! ## CSV serializer (`handleExport`, Home page lines 56–73) -/

/-- A song as typed by the application: `title` and `category` are
required, the rest optional. -/
structure Song where
  title : String
  category : String
  mnemonic : Option String
  lyrics : Option String
  mediaLink : Option String
deriving DecidableEq

/-- Replacement `value.replace(/"/g, '""')`: double every quote. -/
def escapeQuotes : List Char → List Char
  | '"' :: cs => '"' :: '"' :: escapeQuotes cs
  | c :: cs => c :: escapeQuotes cs
  | [] => []

/-- One exported cell: `` `"${value.replace(/"/g, '""')}"` ``. -/
def quoteCell (s : String) : String :=
  "\"" ++ String.mk (escapeQuotes s.data) ++ "\""

/-- The header row `['title', 'category', 'mnemonic', 'lyrics', 'mediaLink'].join(',')`
(line 58). -/
def csvHeader : String := "title,category,mnemonic,lyrics,mediaLink"

/-- One exported data row (lines 59–65): title, mnemonic, lyrics and
mediaLink are quoted with doubling (missing optionals via `|| ''`), the
category is emitted bare, and the five cells are joined with `','`. -/
def songRow (song : Song) : String :=
  String.intercalate ","
    [quoteCell song.title, song.category, quoteCell (song.mnemonic.getD ""),
     quoteCell (song.lyrics.getD ""), quoteCell (song.mediaLink.getD "")]

/-- The export `csvContent` (lines 57–66): header row then one row per
song, joined with `'\n'`. -/
def handleExport (songs : List Song) : String :=
  String.intercalate "\n" (csvHeader :: songs.map songRow)

/-! ## Specification-worded serializer (for claim C4)

`serializeSpecAllQuoted` transcribes the claim as stated: every field
value — the category included — is wrapped in double quotes.
`serializeSpecAmended` is the amended wording: all cells quoted except
the category, which is emitted bare. -/

/-- Modelled from the spec: one row in column order with EVERY field value
wrapped in double quotes (interior quotes doubled), missing optional
fields as an empty quoted string. -/
def rowSpecAllQuoted (song : Song) : String :=
  quoteCell song.title ++ "," ++ quoteCell song.category ++ "," ++
    quoteCell (song.mnemonic.getD "") ++ "," ++
    quoteCell (song.lyrics.getD "") ++ "," ++
    quoteCell (song.mediaLink.getD "")

/-- Modelled from the spec, as stated by claim C4: fixed literal header,
then one all-quoted row per song, rows joined by a single line feed. -/
def serializeSpecAllQuoted (songs : List Song) : String :=
  String.intercalate "\n" (csvHeader :: songs.map rowSpecAllQuoted)

/-- Amended spec row: every cell quoted EXCEPT the category, which is
emitted bare. -/
def rowSpecAmended (song : Song) : String :=
  quoteCell song.title ++ "," ++ song.category ++ "," ++
    quoteCell (song.mnemonic.getD "") ++ "," ++
    quoteCell (song.lyrics.getD "") ++ "," ++
    quoteCell (song.mediaLink.getD "")

/-- Amended spec serializer: header literal, then one row per song with
the category bare, joined by a single line feed. -/
def serializeSpecAmended (songs : List Song) : String :=
  String.intercalate "\n" (csvHeader :: songs.map rowSpecAmended)

/-! ## Specification-worded parsing scan (for claim C7)

`scanSpec` transcribes the scan exactly as the claim states it, in the
claim's own rule order: the quote rule, the comma rule, the CR/LF rule —
where INSIDE quotes CR and LF are both kept as field data — and the
default rule.  `scanSpecAmended` differs in one point only: the line feed
of a CR–LF pair is skipped even inside quotes, as the code does. -/

/-- Modelled from the spec, as stated by claim C7 (inside quotes CR and LF
are kept as data, so a quoted CR–LF pair survives intact). -/
def scanSpec : Bool → List Char → List String → List (List String) →
    List Char → List (List String)
  | _, cur, row, res, [] => flushRow cur row res
  | true, cur, row, res, '"' :: '"' :: cs => scanSpec true (cur ++ ['"']) row res cs
  | true, cur, row, res, '"' :: cs => scanSpec false cur row res cs
  | false, cur, row, res, '"' :: cs => scanSpec true cur row res cs
  | false, cur, row, res, ',' :: cs => scanSpec false [] (row ++ [String.mk cur]) res cs
  | false, cur, row, res, '\r' :: '\n' :: cs => scanSpec false [] [] (flushRow cur row res) cs
  | false, cur, row, res, '\r' :: cs => scanSpec false [] [] (flushRow cur row res) cs
  | false, cur, row, res, '\n' :: cs => scanSpec false [] [] (flushRow cur row res) cs
  | iq, cur, row, res, c :: cs => scanSpec iq (cur ++ [c]) row res cs

/-- Parse as described by claim C7. -/
def parseSpec (text : String) : List (List String) :=
  scanSpec false [] [] [] text.data

/-- Amended spec scan: identical to `scanSpec` except that the LF of a
CR–LF pair is skipped inside quotes as well, the CR alone being kept. -/
def scanSpecAmended : Bool → List Char → List String → List (List String) →
    List Char → List (List String)
  | _, cur, row, res, [] => flushRow cur row res
  | true, cur, row, res, '"' :: '"' :: cs => scanSpecAmended true (cur ++ ['"']) row res cs
  | true, cur, row, res, '"' :: cs => scanSpecAmended false cur row res cs
  | false, cur, row, res, '"' :: cs => scanSpecAmended true cur row res cs
  | false, cur, row, res, ',' :: cs => scanSpecAmended false [] (row ++ [String.mk cur]) res cs
  | true, cur, row, res, '\r' :: '\n' :: cs => scanSpecAmended true (cur ++ ['\r']) row res cs
  | false, cur, row, res, '\r' :: '\n' :: cs => scanSpecAmended false [] [] (flushRow cur row res) cs
  | false, cur, row, res, '\r' :: cs => scanSpecAmended false [] [] (flushRow cur row res) cs
  | false, cur, row, res, '\n' :: cs => scanSpecAmended false [] [] (flushRow cur row res) cs
  | iq, cur, row, res, c :: cs => scanSpecAmended iq (cur ++ [c]) row res cs

/-- Parse as described by the amended claim C7. -/
def parseSpecAmended (text : String) : List (List String) :=
  scanSpecAmended false [] [] [] text.data

/-! ## Round-trip property and value cleanliness (for claims C1, C8) -/

/-- The six lookups the round-trip contract compares: the five canonical
keys, plus the lowercased `"medialink"` key the import actually writes. -/
structure CanonicalView where
  title : Option String
  category : Option String
  mnemonic : Option String
  lyrics : Option String
  medialinkLower : Option String
  mediaLink : Option String
deriving DecidableEq

/-- Read the six compared keys off an imported record. -/
def canonicalFields (f : SongFields) : CanonicalView :=
  ⟨getField f "title", getField f "category", getField f "mnemonic",
   getField f "lyrics", getField f "medialink", getField f "mediaLink"⟩

/-- The round trip of claim C1 as stated: export the song, run the import
pipeline, and require the five canonical field values back byte for byte
(a missing optional counts as the empty string). -/
def roundTripsC1 (song : Song) : Bool :=
  match handleFileChange (handleExport [song]) with
  | .ok [f] =>
    getField f "title" == some song.title &&
    getField f "category" == some song.category &&
    getField f "mnemonic" == some (song.mnemonic.getD "") &&
    getField f "lyrics" == some (song.lyrics.getD "") &&
    getField f "mediaLink" == some (song.mediaLink.getD "")
  | _ => false

/-- Detector for a doubled double quote somewhere in the value. -/
def hasDoubledQuote : List Char → Bool
  | '"' :: '"' :: _ => true
  | _ :: cs => hasDoubledQuote cs
  | [] => false

/-- Cleanliness of a field value for the amended round trip: it does not
begin or end with a double quote, contains no doubled double quote, and
contains no carriage return (commas, line feeds and lone interior quotes
remain allowed). -/
def cleanValue (s : String) : Prop :=
  s.data.head? ≠ some '"' ∧ s.data.getLast? ≠ some '"' ∧
    hasDoubledQuote s.data = false ∧ '\r' ∉ s.data

instance (s : String) : Decidable (cleanValue s) := by
  unfold cleanValue; infer_instance

/-! ## Schema and policy layer (SQL migration)

The `songs` and `prompter_settings` tables with their row-level-security
policies, under standard PostgreSQL semantics for permissive policies:
a `USING` clause filters the rows visible to `SELECT`, `UPDATE` and
`DELETE` (rows that fail it are silently out of scope), while a
`WITH CHECK` clause rejects an `INSERT`ed or `UPDATE`d row outright with a
row-level-security violation.  `auth.uid()` is the acting identity, absent
(`none`) for an unauthenticated caller. -/

/-- A row of the `songs` table (migration lines 57–67). -/
structure SongRow where
  id : Nat
  user_id : Nat
  title : String
  category : String
  mnemonic : Option String
  lyrics : Option String
  media_link : Option String
deriving DecidableEq

/-- A row of the `prompter_settings` table (migration lines 70–78). -/
structure SettingsRow where
  user_id : Nat
  rotation_interval : Nat
  font_size : String
  is_dark_mode : Bool
  use_high_contrast : Bool
  upper_case : Bool
deriving DecidableEq

/-- Storage-layer rejection: the new row violates a row-level-security
`WITH CHECK` clause. -/
inductive RlsError where
  | rowLevelSecurityViolation
deriving DecidableEq

/-- Check constraint on `songs.category` (migration line 61). -/
def sqlCategoryAllowed (c : String) : Prop :=
  c = "angola" ∨ c = "saoBentoPequeno" ∨ c = "saoBentoGrande"

/-- Check constraint on `prompter_settings.font_size` (migration line 73). -/
def sqlFontSizeAllowed (f : String) : Prop :=
  f = "small" ∨ f = "medium" ∨ f = "large" ∨ f = "xlarge"

/-- Modelled from the spec: the four-valued font-size enumeration named by
§3 of the specification. -/
def specFontSizes : List String := ["small", "medium", "large", "xlarge"]

/-- Policy predicate `auth.uid() = user_id` of every `songs` policy
(migration lines 90–109). -/
def songPolicy (uid : Option Nat) (r : SongRow) : Bool :=
  uid == some r.user_id

/-- Policy predicate `auth.uid() = user_id` of every `prompter_settings`
policy (migration lines 112–126). -/
def settingsPolicy (uid : Option Nat) (r : SettingsRow) : Bool :=
  uid == some r.user_id

/-- SELECT on `songs` under the policy "Users can view own songs": the
`USING` clause filters the visible rows; the statement itself never
fails. -/
def selectSongs (uid : Option Nat) (db : List SongRow) :
    Except RlsError (List SongRow) :=
  .ok (db.filter (songPolicy uid))

/-- INSERT on `songs` under "Users can insert own songs": the `WITH CHECK`
clause rejects a new row whose owner is not the acting identity. -/
def insertSong (uid : Option Nat) (r : SongRow) (db : List SongRow) :
    Except RlsError (List SongRow) :=
  if songPolicy uid r then .ok (db ++ [r])
  else .error .rowLevelSecurityViolation

/-- UPDATE on `songs` under "Users can update own songs": only rows passing
the `USING` clause (and the statement's own WHERE condition `target`) are
updated; each updated row must pass the `WITH CHECK` clause or the whole
statement fails. -/
def updateSongs (uid : Option Nat) (target : SongRow → Bool)
    (f : SongRow → SongRow) (db : List SongRow) :
    Except RlsError (List SongRow) :=
  db.mapM (fun r =>
    if songPolicy uid r && target r then
      if songPolicy uid (f r) then .ok (f r)
      else .error .rowLevelSecurityViolation
    else .ok r)

/-- DELETE on `songs` under "Users can delete own songs": only rows passing
the `USING` clause (and the WHERE condition) are removed; the statement
never fails. -/
def deleteSongs (uid : Option Nat) (target : SongRow → Bool)
    (db : List SongRow) : Except RlsError (List SongRow) :=
  .ok (db.filter (fun r => !(songPolicy uid r && target r)))

/-- SELECT on `prompter_settings` under "Users can view own settings". -/
def selectSettings (uid : Option Nat) (db : List SettingsRow) :
    Except RlsError (List SettingsRow) :=
  .ok (db.filter (settingsPolicy uid))

/-- INSERT on `prompter_settings` under "Users can insert own settings". -/
def insertSettings (uid : Option Nat) (r : SettingsRow)
    (db : List SettingsRow) : Except RlsError (List SettingsRow) :=
  if settingsPolicy uid r then .ok (db ++ [r])
  else .error .rowLevelSecurityViolation

/-- UPDATE on `prompter_settings` under "Users can update own settings". -/
def updateSettings (uid : Option Nat) (target : SettingsRow → Bool)
    (f : SettingsRow → SettingsRow) (db : List SettingsRow) :
    Except RlsError (List SettingsRow) :=
  db.mapM (fun r =>
    if settingsPolicy uid r && target r then
      if settingsPolicy uid (f r) then .ok (f r)
      else .error .rowLevelSecurityViolation
    else .ok r)

/-- Decidable equality for `Except`, used to evaluate pipeline results on
concrete inputs. -/
instance {ε α : Type} [DecidableEq ε] [DecidableEq α] :
    DecidableEq (Except ε α) := fun x y =>
  match x, y with
  | .error a, .error b =>
    if h : a = b then .isTrue (by rw [h]) else .isFalse (by simp [h])
  | .ok a, .ok b =>
    if h : a = b then .isTrue (by rw [h]) else .isFalse (by simp [h])
  | .error _, .ok _ => .isFalse (by simp)
  | .ok _, .error _ => .isFalse (by simp)

/-! # Theorems

General lemmas about the embedded definitions, then one theorem per claim
(with its counterexample and witness where required). -/

/-- Rebuilding a string from its character data is the identity. -/
theorem string_mk_data (s : String) : String.mk s.data = s := rfl

/-! ## Lemmas about the secondary un-quoting pass -/

/-- Stripping the leading quote is the identity when the value does not
start with a quote. -/
theorem stripLeadingQuote_eq_self (l : List Char) (h : l.head? ≠ some '"') :
    stripLeadingQuote l = l := by
  cases l with
  | nil => rfl
  | cons c cs =>
    have hc : c ≠ '"' := by simpa using h
    simp [stripLeadingQuote, hc]

/-- Stripping the trailing quote is the identity when the value does not
end with a quote. -/
theorem stripTrailingQuote_eq_self (l : List Char) (h : l.getLast? ≠ some '"') :
    stripTrailingQuote l = l := by
  simp [stripTrailingQuote, h]

/-- Un-doubling quotes is the identity when no doubled quote occurs. -/
theorem undoubleQuotes_eq_self (l : List Char) (h : hasDoubledQuote l = false) :
    undoubleQuotes l = l := by
  induction l with
  | nil => rfl
  | cons c cs ih =>
    by_cases hq : c = '"'
    · subst hq
      cases cs with
      | nil => rfl
      | cons c2 cs2 =>
        by_cases hq2 : c2 = '"'
        · subst hq2; simp [hasDoubledQuote] at h
        · rw [show undoubleQuotes ('"' :: c2 :: cs2) = '"' :: undoubleQuotes (c2 :: cs2) from by
            simp [undoubleQuotes, hq2]]
          rw [ih]
          simpa [hasDoubledQuote, hq2] using h
    · rw [show undoubleQuotes (c :: cs) = c :: undoubleQuotes cs from by
        simp [undoubleQuotes, hq]]
      rw [ih]
      simpa [hasDoubledQuote, hq] using h

/-- The un-quoting pass is the identity on a value that has no leading or
trailing quote and no doubled quote. -/
theorem unquoteValue_eq_self (s : String) (h1 : s.data.head? ≠ some '"')
    (h2 : s.data.getLast? ≠ some '"') (h3 : hasDoubledQuote s.data = false) :
    unquoteValue s = s := by
  unfold unquoteValue
  rw [stripLeadingQuote_eq_self _ h1, stripTrailingQuote_eq_self _ h2,
    undoubleQuotes_eq_self _ h3, string_mk_data]

/-- Stripping the leading quote never lengthens the value. -/
theorem stripLeadingQuote_length_le (l : List Char) :
    (stripLeadingQuote l).length ≤ l.length := by
  cases l with
  | nil => simp [stripLeadingQuote]
  | cons c cs =>
    by_cases hq : c = '"'
    · subst hq
      simp [stripLeadingQuote]
    · simp [stripLeadingQuote, hq]

/-- Stripping a present leading quote strictly shortens the value. -/
theorem stripLeadingQuote_length_lt (l : List Char)
    (h : l.head? = some '"') :
    (stripLeadingQuote l).length < l.length := by
  cases l with
  | nil => simp at h
  | cons c cs =>
    have hq : c = '"' := by simpa using h
    subst hq
    simp [stripLeadingQuote]

/-- Stripping the trailing quote never lengthens the value. -/
theorem stripTrailingQuote_length_le (l : List Char) :
    (stripTrailingQuote l).length ≤ l.length := by
  unfold stripTrailingQuote
  split
  · rw [List.length_dropLast]
    omega
  · exact le_rfl

/-- Stripping a present trailing quote strictly shortens the value. -/
theorem stripTrailingQuote_length_lt (l : List Char)
    (h : l.getLast? = some '"') :
    (stripTrailingQuote l).length < l.length := by
  have hne : l ≠ [] := by
    intro he
    rw [he] at h
    simp at h
  have hpos : 0 < l.length := List.length_pos.mpr hne
  unfold stripTrailingQuote
  rw [if_pos h, List.length_dropLast]
  omega

/-- Un-doubling quotes never lengthens the value. -/
theorem undoubleQuotes_length_le : ∀ (n : Nat) (l : List Char),
    l.length ≤ n → (undoubleQuotes l).length ≤ l.length := by
  intro n
  induction n with
  | zero =>
    intro l hl
    cases l with
    | nil => simp [undoubleQuotes]
    | cons c cs => simp at hl
  | succ n ih =>
    intro l hl
    cases l with
    | nil => simp [undoubleQuotes]
    | cons c cs =>
      by_cases hq : c = '"'
      · subst hq
        cases cs with
        | nil => decide
        | cons c2 cs2 =>
          by_cases hq2 : c2 = '"'
          · subst hq2
            rw [show undoubleQuotes ('"' :: '"' :: cs2) =
              '"' :: undoubleQuotes cs2 from rfl]
            have := ih cs2 (by simp at hl; omega)
            simp only [List.length_cons]
            omega
          · rw [show undoubleQuotes ('"' :: c2 :: cs2) =
              '"' :: undoubleQuotes (c2 :: cs2) from by
                simp [undoubleQuotes, hq2]]
            have := ih (c2 :: cs2) (by simp at hl ⊢; omega)
            simp only [List.length_cons] at this ⊢
            omega
      · rw [show undoubleQuotes (c :: cs) = c :: undoubleQuotes cs from by
          simp [undoubleQuotes, hq]]
        have := ih cs (by simp at hl; omega)
        simp only [List.length_cons]
        omega

/-- Un-doubling a value that does contain a doubled quote strictly
shortens it. -/
theorem undoubleQuotes_length_lt : ∀ (n : Nat) (l : List Char),
    l.length ≤ n → hasDoubledQuote l = true →
    (undoubleQuotes l).length < l.length := by
  intro n
  induction n with
  | zero =>
    intro l hl hd
    cases l with
    | nil => simp [hasDoubledQuote] at hd
    | cons c cs => simp at hl
  | succ n ih =>
    intro l hl hd
    cases l with
    | nil => simp [hasDoubledQuote] at hd
    | cons c cs =>
      by_cases hq : c = '"'
      · subst hq
        cases cs with
        | nil => simp [hasDoubledQuote] at hd
        | cons c2 cs2 =>
          by_cases hq2 : c2 = '"'
          · subst hq2
            rw [show undoubleQuotes ('"' :: '"' :: cs2) =
              '"' :: undoubleQuotes cs2 from rfl]
            have := undoubleQuotes_length_le cs2.length cs2 le_rfl
            simp only [List.length_cons]
            omega
          · rw [show undoubleQuotes ('"' :: c2 :: cs2) =
              '"' :: undoubleQuotes (c2 :: cs2) from by
                simp [undoubleQuotes, hq2]]
            have hd2 : hasDoubledQuote (c2 :: cs2) = true := by
              simpa [hasDoubledQuote, hq2] using hd
            have := ih (c2 :: cs2) (by simp at hl ⊢; omega) hd2
            simp only [List.length_cons] at this ⊢
            omega
      · rw [show undoubleQuotes (c :: cs) = c :: undoubleQuotes cs from by
          simp [undoubleQuotes, hq]]
        have hd2 : hasDoubledQuote cs = true := by
          simpa [hasDoubledQuote, hq] using hd
        have := ih cs (by simp at hl; omega) hd2
        simp only [List.length_cons]
        omega

/-- On a value whose head is a quote, whose last character is a quote, or
which contains a doubled quote, the un-quoting pass strictly shortens the
value, so it is not a fixed point. -/
theorem unquoteValue_ne_of_unclean (t : String)
    (h : ¬(t.data.head? ≠ some '"' ∧ t.data.getLast? ≠ some '"' ∧
      hasDoubledQuote t.data = false)) :
    unquoteValue t ≠ t := by
  have hlt : (undoubleQuotes (stripTrailingQuote
      (stripLeadingQuote t.data))).length < t.data.length := by
    by_cases h1 : t.data.head? = some '"'
    · have s1 := stripLeadingQuote_length_lt t.data h1
      have s2 := stripTrailingQuote_length_le (stripLeadingQuote t.data)
      have s3 := undoubleQuotes_length_le
        (stripTrailingQuote (stripLeadingQuote t.data)).length
        (stripTrailingQuote (stripLeadingQuote t.data)) le_rfl
      omega
    · rw [stripLeadingQuote_eq_self t.data h1]
      by_cases h2 : t.data.getLast? = some '"'
      · have s2 := stripTrailingQuote_length_lt t.data h2
        have s3 := undoubleQuotes_length_le
          (stripTrailingQuote t.data).length (stripTrailingQuote t.data)
          le_rfl
        omega
      · rw [stripTrailingQuote_eq_self t.data h2]
        have h3 : hasDoubledQuote t.data = true := by
          rcases Bool.eq_false_or_eq_true (hasDoubledQuote t.data) with ht | hf
          · exact ht
          · exact absurd ⟨h1, h2, hf⟩ h
        exact undoubleQuotes_length_lt t.data.length t.data le_rfl h3
  intro heq
  have hdata : (unquoteValue t).data = t.data := by rw [heq]
  have : (undoubleQuotes (stripTrailingQuote
      (stripLeadingQuote t.data))).length = t.data.length := by
    rw [show undoubleQuotes (stripTrailingQuote (stripLeadingQuote t.data)) =
      (unquoteValue t).data from rfl, hdata]
  omega

/-! ## Claim C8: idempotence of the un-quoting pass -/

/-- Counterexample to claim C8 as stated: on the three-quote string the
pass yields a single quote, and a second application strips that quote
away, so the pass is not idempotent. -/
theorem c8_unquote_not_idempotent :
    unquoteValue "\"\"\"" = "\"" ∧ unquoteValue (unquoteValue "\"\"\"") = "" ∧
      unquoteValue (unquoteValue "\"\"\"") ≠ unquoteValue "\"\"\"" := by
  refine ⟨by decide, by decide, by decide⟩

/-- Claim C8, amended: the un-quoting pass is idempotent on exactly those
inputs whose image under one application does not begin or end with a
double quote and contains no doubled double quote — on every other input
a second application strictly shortens the value again. -/
theorem c8_unquote_idempotent_iff_clean_image (s : String) :
    unquoteValue (unquoteValue s) = unquoteValue s ↔
      ((unquoteValue s).data.head? ≠ some '"' ∧
        (unquoteValue s).data.getLast? ≠ some '"' ∧
        hasDoubledQuote (unquoteValue s).data = false) := by
  constructor
  · intro heq
    by_contra h
    exact unquoteValue_ne_of_unclean (unquoteValue s) h heq
  · rintro ⟨h1, h2, h3⟩
    exact unquoteValue_eq_self _ h1 h2 h3

/-- Witness for the amended claim C8 at the concrete input `"a"` (a
quoted letter): one application yields `a`, whose image is clean, and a
second application leaves it unchanged. -/
theorem c8_unquote_idempotent_witness :
    unquoteValue (unquoteValue "\"a\"") = unquoteValue "\"a\"" :=
  (c8_unquote_idempotent_iff_clean_image "\"a\"").mpr (by decide)

/-! ## Claim C4: serializer format -/

/-- Counterexample to claim C4 as stated: the code does not wrap the
category cell in double quotes, so the export of a single song differs
from the all-quoted serialization the claim describes. -/
theorem c4_category_not_quoted :
    handleExport [⟨"t", "angola", none, none, none⟩] =
      "title,category,mnemonic,lyrics,mediaLink\n\"t\",angola,\"\",\"\",\"\"" ∧
    handleExport [⟨"t", "angola", none, none, none⟩] ≠
      serializeSpecAllQuoted [⟨"t", "angola", none, none, none⟩] := by
  refine ⟨by decide, by decide⟩

/-- Claim C4, amended: the export emits the literal header row, then one
row per song in column order joined by single line feeds, in which every
cell except the category is quoted with interior quotes doubled (missing
optionals as empty quoted strings) while the category is emitted bare;
exporting no songs yields exactly the header row. -/
theorem c4_serializer_format (songs : List Song) :
    handleExport songs = serializeSpecAmended songs ∧
      handleExport [] = csvHeader :=
  ⟨rfl, rfl⟩

/-! ## Claim C9: the two layers agree on the enumerations -/

/-- Claim C9: the category whitelist of the import validation accepts
exactly the categories the storage-layer check constraint allows, and the
storage layer constrains font sizes to exactly the four enumerated
values. -/
theorem c9_enumerations_agree :
    (∀ c, validCategories.contains c = true ↔ sqlCategoryAllowed c) ∧
      (∀ f, sqlFontSizeAllowed f ↔ f ∈ specFontSizes) := by
  constructor
  · intro c
    rw [List.elem_iff]
    simp [validCategories, sqlCategoryAllowed]
  · intro f
    simp [sqlFontSizeAllowed, specFontSizes]

/-! ## Claim C6: format errors before any row is processed -/

/-- Claim C6: when fewer than two rows are parsed the import fails with
the minimum-rows error, and when the lowercased-and-trimmed header cells
miss `title` or `category` it fails with the missing-columns error; in
either case the result is an error, so no record is handed to the
repository. -/
theorem c6_format_error (text : String) :
    ((parseCSV text).length < 2 → handleFileChange text = .error errMinRows) ∧
      (2 ≤ (parseCSV text).length →
        ((headerCells (parseCSV text)).contains "title" = false ∨
          (headerCells (parseCSV text)).contains "category" = false) →
        handleFileChange text = .error errColumns) := by
  constructor
  · intro h
    simp [handleFileChange, h]
  · intro hlen hmiss
    have h2 : ¬(parseCSV text).length < 2 := by omega
    simp only [handleFileChange]
    rw [if_neg h2]
    rcases hmiss with h | h
    · have hcond : (!(headerCells (parseCSV text)).contains "title" ||
          !(headerCells (parseCSV text)).contains "category") = true := by
        simp only [Bool.or_eq_true, Bool.not_eq_true']
        exact Or.inl h
      rw [if_pos hcond]
    · have hcond : (!(headerCells (parseCSV text)).contains "title" ||
          !(headerCells (parseCSV text)).contains "category") = true := by
        simp only [Bool.or_eq_true, Bool.not_eq_true']
        exact Or.inr h
      rw [if_pos hcond]

/-- Witness for claim C6: a header-only file hits the minimum-rows error,
and a file without the required columns hits the missing-columns error. -/
theorem c6_format_error_witness :
    handleFileChange "title,category" = .error errMinRows ∧
      handleFileChange "a,b\nc,d" = .error errColumns :=
  ⟨(c6_format_error "title,category").1 (by decide),
    (c6_format_error "a,b\nc,d").2 (by decide) (by decide)⟩

/-! ## Claim C5: per-row validation predicate and line numbers -/

/-- Claim C5: data row `k` (1-based) is rejected precisely when its title
and mnemonic are both falsy or its category is not one of the three
enumerated values; the title/mnemonic error and the category error for
that row both report line `k + 1`, so the first data row is reported as
line 2. -/
theorem c5_row_validation (headers values : List String) (k : Nat)
    (hk : 1 ≤ k) :
    ((mapRow headers values (k - 1)).isOk = true ↔
      ((truthy (getField (buildFields headers values) "title") = true ∨
        truthy (getField (buildFields headers values) "mnemonic") = true) ∧
        categoryIncluded (getField (buildFields headers values) "category") = true)) ∧
    (truthy (getField (buildFields headers values) "title") = false →
      truthy (getField (buildFields headers values) "mnemonic") = false →
      mapRow headers values (k - 1) = .error (errTitleLine (k + 1))) ∧
    ((truthy (getField (buildFields headers values) "title") = true ∨
      truthy (getField (buildFields headers values) "mnemonic") = true) →
      categoryIncluded (getField (buildFields headers values) "category") = false →
      mapRow headers values (k - 1) =
        .error (errCategoryLine (k + 1)
          (getField (buildFields headers values) "category"))) := by
  have harith : k - 1 + 2 = k + 1 := by omega
  cases ht : truthy (getField (buildFields headers values) "title") <;>
    cases hm : truthy (getField (buildFields headers values) "mnemonic") <;>
      cases hc : categoryIncluded (getField (buildFields headers values) "category") <;>
        simp [mapRow, ht, hm, hc, harith, Except.isOk, Except.toBool]

/-- Witness for claim C5: a first data row with empty title but non-empty
mnemonic and a valid category is accepted. -/
theorem c5_row_validation_witness :
    1 ≤ 1 ∧
      (mapRow ["title", "category", "mnemonic"] ["", "angola", "hello"]
        (1 - 1)).isOk = true :=
  ⟨by decide,
    ((c5_row_validation ["title", "category", "mnemonic"]
      ["", "angola", "hello"] 1 (by decide)).1).mpr (by decide)⟩

/-! ## Claim C3: validation completes before any write -/

/-- Propagation of the first row error through the indexed traversal: if
every data row before position `j` validates and row `j` fails with `e`,
the traversal fails with `e`. -/
theorem mapRows_error_at (headers : List String) (l : List (List String)) :
    ∀ (base j : Nat) (e : String),
      j < l.length →
      (∀ i, i < j → (mapRow headers (l.getD i []) (base + i)).isOk = true) →
      mapRow headers (l.getD j []) (base + j) = .error e →
      mapRows headers l base = .error e := by
  induction l with
  | nil =>
    intro base j e hj
    simp at hj
  | cons v rest ih =>
    intro base j e hj hok herr
    cases j with
    | zero =>
      have h0 : mapRow headers v base = .error e := by simpa using herr
      show (do
        let song ← mapRow headers v base
        let songs ← mapRows headers rest (base + 1)
        pure (song :: songs) : Except String (List SongFields)) = .error e
      rw [h0]
      rfl
    | succ j' =>
      have h0 : (mapRow headers v base).isOk = true := by
        simpa using hok 0 (Nat.succ_pos _)
      obtain ⟨s, hs⟩ : ∃ s, mapRow headers v base = .ok s := by
        cases hmr : mapRow headers v base with
        | error err => rw [hmr] at h0; simp [Except.isOk, Except.toBool] at h0
        | ok s => exact ⟨s, rfl⟩
      have hrec : mapRows headers rest (base + 1) = .error e := by
        apply ih (base + 1) j' e (by simpa using hj)
        · intro i hi
          have h := hok (i + 1) (by omega)
          have e1 : base + (i + 1) = base + 1 + i := by omega
          simpa [e1] using h
        · have e2 : base + (j' + 1) = base + 1 + j' := by omega
          simpa [e2] using herr
      show (do
        let song ← mapRow headers v base
        let songs ← mapRows headers rest (base + 1)
        pure (song :: songs) : Except String (List SongFields)) = .error e
      rw [hs, hrec]
      rfl

/-- Claim C3: if the format checks pass, every data row before position
`j` validates and data row `j` fails validation with error `e`, the
whole import fails with `e` — `onImport` is never reached and no record
at all is handed over, the rows preceding the failing one included. -/
theorem c3_abort_on_first_invalid (text : String) (j : Nat) (e : String)
    (hlen : 2 ≤ (parseCSV text).length)
    (ht : (headerCells (parseCSV text)).contains "title" = true)
    (hc : (headerCells (parseCSV text)).contains "category" = true)
    (hj : j < ((parseCSV text).drop 1).length)
    (hok : ∀ i, i < j →
      (mapRow (headerCells (parseCSV text))
        (((parseCSV text).drop 1).getD i []) i).isOk = true)
    (herr : mapRow (headerCells (parseCSV text))
      (((parseCSV text).drop 1).getD j []) j = .error e) :
    handleFileChange text = .error e := by
  have h2 : ¬(parseCSV text).length < 2 := by omega
  simp only [handleFileChange]
  rw [if_neg h2, if_neg (fun hcond => by
    simp only [Bool.or_eq_true, Bool.not_eq_true'] at hcond
    rcases hcond with h | h
    · exact absurd (show "title" ∈ headerCells (parseCSV text) by simpa using ht)
        (by simpa using h)
    · exact absurd (show "category" ∈ headerCells (parseCSV text) by simpa using hc)
        (by simpa using h))]
  exact mapRows_error_at _ _ 0 j e hj
    (fun i hi => by simpa using hok i hi) (by simpa using herr)

/-- Witness for claim C3: the third line has an invalid category, so the
whole import fails with that row's error and the valid first data row is
not handed over. -/
theorem c3_abort_witness :
    handleFileChange "title,category\na,angola\nb,badcat" =
      .error (errCategoryLine 3 (some "badcat")) :=
  c3_abort_on_first_invalid "title,category\na,angola\nb,badcat" 1
    (errCategoryLine 3 (some "badcat")) (by decide) (by decide) (by decide)
    (by decide) (by decide) (by decide)

/-! ## Claim C10: rows shorter than the header -/

/-- Reading past the end of the padded value list gives the same result
as reading past the end of the original one: the default empty string. -/
theorem getD_append_replicate_empty (values : List String) (k i : Nat) :
    (values ++ List.replicate k "").getD i "" = values.getD i "" := by
  rcases Nat.lt_or_ge i values.length with h | h
  · rw [List.getD_eq_getElem?_getD, List.getElem?_append_left h,
      ← List.getD_eq_getElem?_getD]
  · rw [List.getD_eq_getElem?_getD, List.getElem?_append_right h,
      List.getElem?_replicate, List.getD_eq_getElem?_getD,
      List.getElem?_eq_none h]
    split <;> rfl

/-- Padding the value list with empty strings leaves the built record
unchanged, because a missing column already reads as the empty string. -/
theorem buildFields_append_replicate (headers values : List String) (k : Nat) :
    buildFields headers (values ++ List.replicate k "") =
      buildFields headers values := by
  unfold buildFields
  exact List.map_congr_left fun p _ => by
    rw [getD_append_replicate_empty]

/-- The un-quoting pass leaves the empty string unchanged. -/
theorem unquoteValue_empty : unquoteValue "" = "" := rfl

/-- Claim C10: a data row with fewer fields than the header has columns is
processed as if the missing fields were empty strings — validation gives
the same outcome as on the padded row — and each missing column is
assigned the empty string in the built record rather than failing on an
out-of-range access. -/
theorem c10_short_rows (headers values : List String) (k i j : Nat)
    (hj : values.length ≤ j) (hjh : j < headers.length) :
    mapRow headers (values ++ List.replicate k "") i = mapRow headers values i ∧
      (buildFields headers values).getD j ("", "") =
        (jsTrim (headers.getD j ""), "") := by
  constructor
  · unfold mapRow
    rw [buildFields_append_replicate]
  · have hlen : j < (buildFields headers values).length := by
      simpa [buildFields, List.enum_length] using hjh
    rw [List.getD_eq_getElem _ _ hlen]
    unfold buildFields
    rw [List.getElem_map]
    rw [List.getElem_enum]
    have hv : values.getD j "" = "" := by
      rw [List.getD_eq_getElem?_getD, List.getElem?_eq_none hj]
      rfl
    rw [hv, unquoteValue_empty, List.getD_eq_getElem headers "" hjh]

/-- Witness for claim C10: a one-field row under a three-column header
validates exactly like its padded form, and the missing third column reads
as the empty string. -/
theorem c10_short_rows_witness :
    ([("x" : String)].length ≤ 2 ∧ 2 < (["title", "category", "mnemonic"] : List String).length) ∧
      mapRow ["title", "category", "mnemonic"] (["x"] ++ List.replicate 2 "") 0 =
        mapRow ["title", "category", "mnemonic"] ["x"] 0 ∧
      (buildFields ["title", "category", "mnemonic"] ["x"]).getD 2 ("", "") =
        (jsTrim (["title", "category", "mnemonic"].getD 2 ""), "") :=
  ⟨⟨by decide, by decide⟩,
    (c10_short_rows ["title", "category", "mnemonic"] ["x"] 2 0 2
      (by decide) (by decide)).1,
    (c10_short_rows ["title", "category", "mnemonic"] ["x"] 2 0 2
      (by decide) (by decide)).2⟩

/-! ## Claim C2: storage-layer authorization -/

/-- Binding an error propagates it. -/
theorem except_bind_error {ε α β : Type} (e : ε) (f : α → Except ε β) :
    (Except.error e >>= f) = Except.error e := rfl

/-- Binding a success applies the continuation. -/
theorem except_bind_ok {ε α β : Type} (a : α) (f : α → Except ε β) :
    (Except.ok a >>= f) = f a := rfl

/-- An element mapped to itself by a successful effectful traversal is in
the output. -/
theorem mapM_except_mem_of_ok_self {α ε : Type} (g : α → Except ε α) :
    ∀ (l l' : List α), l.mapM g = .ok l' → ∀ x ∈ l, g x = .ok x → x ∈ l' := by
  intro l
  induction l with
  | nil =>
    intro l' h x hx
    simp at hx
  | cons y t ih =>
    intro l' h x hx hgx
    rw [List.mapM_cons] at h
    cases hy : g y with
    | error e =>
      rw [hy, except_bind_error] at h
      simp at h
    | ok b =>
      rw [hy, except_bind_ok] at h
      cases hts : t.mapM g with
      | error e =>
        rw [hts, except_bind_error] at h
        simp at h
      | ok bs =>
        rw [hts, except_bind_ok] at h
        have hl' : l' = b :: bs := by
          have : (Except.ok (b :: bs) : Except ε (List α)) = .ok l' := h
          simpa using this.symm
        subst hl'
        rcases List.mem_cons.mp hx with rfl | hxt
        · have hb : b = x := by
            rw [hgx] at hy
            have hxb : x = b := by simpa using hy
            exact hxb.symm
          subst hb
          exact List.mem_cons_self _ _
        · exact List.mem_cons_of_mem _ (ih bs hts x hxt hgx)

/-- A traversal containing a failing element fails. -/
theorem mapM_except_error_of_mem {α β ε : Type} (g : α → Except ε β) :
    ∀ l : List α, (∃ x ∈ l, ∃ e, g x = .error e) →
      ∃ e, l.mapM g = .error e := by
  intro l
  induction l with
  | nil =>
    rintro ⟨x, hx, _⟩
    simp at hx
  | cons y t ih =>
    rintro ⟨x, hx, e, hgx⟩
    rw [List.mapM_cons]
    rcases List.mem_cons.mp hx with rfl | hxt
    · rw [hgx, except_bind_error]
      exact ⟨e, rfl⟩
    · cases hy : g y with
      | error e2 =>
        rw [except_bind_error]
        exact ⟨e2, rfl⟩
      | ok b =>
        rw [except_bind_ok]
        obtain ⟨e3, he3⟩ := ih ⟨x, hxt, e, hgx⟩
        rw [he3, except_bind_error]
        exact ⟨e3, rfl⟩

/-- Counterexample to claim C2 as stated: under the declared policies a
SELECT by a non-owner is filtered to an empty, successful result — it does
not surface as an authorization failure. -/
theorem c2_select_filters_not_denies :
    selectSongs (some 1) [⟨0, 2, "t", "angola", none, none, none⟩] = .ok [] ∧
      selectSongs (some 1) [⟨0, 2, "t", "angola", none, none, none⟩] ≠
        .error .rowLevelSecurityViolation := by
  refine ⟨by decide, by decide⟩

/-- Claim C2, amended: a `SELECT`, `UPDATE` or `DELETE` by an identity
that does not own a row is scoped away from that row by the `USING`
clauses — the row is invisible to reads (an empty result, never an error)
and untouched by updates and deletes — while `INSERT` and `UPDATE` are
rejected outright by the `WITH CHECK` clauses when the submitted row's
owner field differs from the acting identity; the settings table behaves
the same for its select, insert and update policies. -/
theorem c2_rls_scoping (uid : Nat) (r : SongRow) (s : SettingsRow)
    (db : List SongRow) (sdb : List SettingsRow)
    (target : SongRow → Bool) (f : SongRow → SongRow)
    (starget : SettingsRow → Bool) (sf : SettingsRow → SettingsRow)
    (hr : r.user_id ≠ uid) (hs : s.user_id ≠ uid) :
    (∀ res, selectSongs (some uid) db = .ok res → r ∉ res) ∧
      (∃ res, selectSongs (some uid) db = .ok res) ∧
      insertSong (some uid) r db = .error .rowLevelSecurityViolation ∧
      (∀ db', updateSongs (some uid) target f db = .ok db' → r ∈ db → r ∈ db') ∧
      (∀ db', deleteSongs (some uid) target db = .ok db' → r ∈ db → r ∈ db') ∧
      (∀ r0, r0 ∈ db → r0.user_id = uid → target r0 = true →
        (f r0).user_id ≠ uid →
        ∃ err, updateSongs (some uid) target f db = .error err) ∧
      (∀ res, selectSettings (some uid) sdb = .ok res → s ∉ res) ∧
      insertSettings (some uid) s sdb = .error .rowLevelSecurityViolation ∧
      (∀ sdb', updateSettings (some uid) starget sf sdb = .ok sdb' →
        s ∈ sdb → s ∈ sdb') := by
  have hpol : songPolicy (some uid) r = false := by
    simp [songPolicy]
    omega
  have hspol : settingsPolicy (some uid) s = false := by
    simp [settingsPolicy]
    omega
  refine ⟨?_, ⟨_, rfl⟩, ?_, ?_, ?_, ?_, ?_, ?_, ?_⟩
  · intro res hres hmem
    have : res = db.filter (songPolicy (some uid)) := by
      simpa [selectSongs] using hres.symm
    subst this
    have := (List.mem_filter.mp hmem).2
    rw [hpol] at this
    cases this
  · simp [insertSong, hpol]
  · intro db' hdb' hmem
    refine mapM_except_mem_of_ok_self _ db db' hdb' r hmem ?_
    simp [hpol]
  · intro db' hdb' hmem
    have : db' = db.filter (fun x => !(songPolicy (some uid) x && target x)) := by
      simpa [deleteSongs] using hdb'.symm
    subst this
    exact List.mem_filter.mpr ⟨hmem, by simp [hpol]⟩
  · intro r0 hr0 hu ht hfu
    refine mapM_except_error_of_mem _ db ⟨r0, hr0, .rowLevelSecurityViolation, ?_⟩
    have h1 : songPolicy (some uid) r0 = true := by
      simp [songPolicy, hu]
    have h2 : songPolicy (some uid) (f r0) = false := by
      simp [songPolicy]
      omega
    simp [h1, ht, h2]
  · intro res hres hmem
    have : res = sdb.filter (settingsPolicy (some uid)) := by
      simpa [selectSettings] using hres.symm
    subst this
    have := (List.mem_filter.mp hmem).2
    rw [hspol] at this
    cases this
  · simp [insertSettings, hspol]
  · intro sdb' hsdb' hmem
    refine mapM_except_mem_of_ok_self _ sdb sdb' hsdb' s hmem ?_
    simp [hspol]

/-- Witness for the amended claim C2: a concrete insert of somebody
else's song row and of somebody else's settings row are both rejected
with a row-level-security violation. -/
theorem c2_rls_scoping_witness :
    insertSong (some 1) ⟨0, 2, "t", "angola", none, none, none⟩
        [⟨0, 2, "t", "angola", none, none, none⟩] =
      .error .rowLevelSecurityViolation ∧
    insertSettings (some 1) ⟨2, 120, "medium", true, false, false⟩ [] =
      .error .rowLevelSecurityViolation := by
  have h := c2_rls_scoping 1 ⟨0, 2, "t", "angola", none, none, none⟩
    ⟨2, 120, "medium", true, false, false⟩
    [⟨0, 2, "t", "angola", none, none, none⟩] [] (fun _ => true) id
    (fun _ => true) id (by decide) (by decide)
  exact ⟨h.2.2.1, h.2.2.2.2.2.2.2.1⟩

/-! ## Parser step lemmas -/

/-- End of input flushes the pending state. -/
theorem parseAux_nil (iq : Bool) (cur : List Char) (row : List String)
    (res : List (List String)) :
    parseAux iq cur row res [] = flushRow cur row res := by
  cases iq <;> rfl

/-- An opening quote toggles into the quoted state. -/
theorem parseAux_openQuote (cur : List Char) (row : List String)
    (res : List (List String)) (cs : List Char) :
    parseAux false cur row res ('"' :: cs) = parseAux true cur row res cs := by
  cases cs <;> rfl

/-- A closing quote (not followed by another quote) toggles out of the
quoted state. -/
theorem parseAux_closeQuote (cur : List Char) (row : List String)
    (res : List (List String)) (cs : List Char) (h : cs.head? ≠ some '"') :
    parseAux true cur row res ('"' :: cs) = parseAux false cur row res cs := by
  cases cs with
  | nil => rfl
  | cons c2 cs2 =>
    have h2 : c2 ≠ '"' := by simpa using h
    simp [parseAux, h2]

/-- A comma outside quotes ends the current field. -/
theorem parseAux_comma_out (cur : List Char) (row : List String)
    (res : List (List String)) (cs : List Char) :
    parseAux false cur row res (',' :: cs) =
      parseAux false [] (row ++ [String.mk cur]) res cs := by
  cases cs <;> rfl

/-- A line feed outside quotes ends the current row. -/
theorem parseAux_newline_out (cur : List Char) (row : List String)
    (res : List (List String)) (cs : List Char) :
    parseAux false cur row res ('\n' :: cs) =
      parseAux false [] [] (flushRow cur row res) cs := by
  cases cs <;> rfl

/-- Any character other than CR, LF, quote and comma is accumulated. -/
theorem parseAux_plain (iq : Bool) (cur : List Char) (row : List String)
    (res : List (List String)) (c : Char) (cs : List Char) (h1 : c ≠ '\r')
    (h2 : c ≠ '\n') (h3 : c ≠ '"') (h4 : c ≠ ',') :
    parseAux iq cur row res (c :: cs) = parseAux iq (cur ++ [c]) row res cs := by
  cases iq <;> cases cs <;> simp [parseAux, h1, h2, h3, h4]

/-- A run of plain characters is accumulated wholesale. -/
theorem parseAux_plainToken : ∀ (l : List Char),
    (∀ c ∈ l, c ≠ '\r' ∧ c ≠ '\n' ∧ c ≠ '"' ∧ c ≠ ',') →
    ∀ (cur : List Char) (row : List String) (res : List (List String))
      (cs : List Char),
      parseAux false cur row res (l ++ cs) =
        parseAux false (cur ++ l) row res cs := by
  intro l
  induction l with
  | nil =>
    intro _ cur row res cs
    simp
  | cons c t ih =>
    intro h cur row res cs
    obtain ⟨h1, h2, h3, h4⟩ := h c (List.mem_cons_self c t)
    rw [List.cons_append, parseAux_plain _ _ _ _ _ _ h1 h2 h3 h4,
      ih (fun c hc => h c (List.mem_cons_of_mem _ hc))]
    simp

/-- Inside quotes, the escaped form of a CR-free value is accumulated as
the value itself. -/
theorem parseAux_quotedData : ∀ (l : List Char), '\r' ∉ l →
    ∀ (cur : List Char) (row : List String) (res : List (List String))
      (cs : List Char),
      parseAux true cur row res (escapeQuotes l ++ cs) =
        parseAux true (cur ++ l) row res cs := by
  intro l
  induction l with
  | nil =>
    intro _ cur row res cs
    simp [escapeQuotes]
  | cons c t ih =>
    intro hr cur row res cs
    have hcr : c ≠ '\r' := fun h => hr (h ▸ List.mem_cons_self c t)
    have htr : '\r' ∉ t := fun h => hr (List.mem_cons_of_mem _ h)
    by_cases hq : c = '"'
    · subst hq
      rw [show escapeQuotes ('"' :: t) = '"' :: '"' :: escapeQuotes t from rfl,
        List.cons_append, List.cons_append,
        show ∀ X, parseAux true cur row res ('"' :: '"' :: X) =
          parseAux true (cur ++ ['"']) row res X from fun X => rfl,
        ih htr]
      simp
    · rw [show escapeQuotes (c :: t) = c :: escapeQuotes t from by
        simp [escapeQuotes, hq]]
      by_cases hn : c = '\n'
      · subst hn
        rw [List.cons_append,
          show ∀ X, parseAux true cur row res ('\n' :: X) =
            parseAux true (cur ++ ['\n']) row res X from fun X => by
              cases X <;> rfl,
          ih htr]
        simp
      · by_cases hcm : c = ','
        · subst hcm
          rw [List.cons_append,
            show ∀ X, parseAux true cur row res (',' :: X) =
              parseAux true (cur ++ [',']) row res X from fun X => by
                cases X <;> rfl,
            ih htr]
          simp
        · rw [List.cons_append, parseAux_plain _ _ _ _ _ _ hcr hn hq hcm,
            ih htr]
          simp

/-! ## Claim C7: the parser against the specified scan -/

/-- Plain-character step of the amended specification scan. -/
theorem scanSpecAmended_plain (iq : Bool) (cur : List Char)
    (row : List String) (res : List (List String)) (c : Char)
    (cs : List Char) (h1 : c ≠ '\r') (h2 : c ≠ '\n') (h3 : c ≠ '"')
    (h4 : c ≠ ',') :
    scanSpecAmended iq cur row res (c :: cs) =
      scanSpecAmended iq (cur ++ [c]) row res cs := by
  cases iq <;> cases cs <;> simp [scanSpecAmended, h1, h2, h3, h4]

/-- The code's parser loop computes exactly the amended specification
scan, on every input and from every state. -/
theorem parseAux_eq_scanSpecAmended (iq : Bool) (cur : List Char)
    (row : List String) (res : List (List String)) (l : List Char) :
    parseAux iq cur row res l = scanSpecAmended iq cur row res l := by
  induction iq, cur, row, res, l using parseAux.induct with
  | case1 iq cur row res =>
    cases iq <;> rfl
  | case2 cur row res cs ih =>
    rw [show parseAux true cur row res ('\r' :: '\n' :: cs) =
      parseAux true (cur ++ ['\r']) row res cs from rfl, ih,
      show scanSpecAmended true cur row res ('\r' :: '\n' :: cs) =
        scanSpecAmended true (cur ++ ['\r']) row res cs from rfl]
  | case3 cur row res cs hside ih =>
    cases cs with
    | nil =>
      rw [show parseAux true cur row res ['\r'] =
        parseAux true (cur ++ ['\r']) row res [] from rfl, ih]
      rfl
    | cons c2 cs2 =>
      have h2 : c2 ≠ '\n' := fun h => hside cs2 (by rw [h])
      rw [show parseAux true cur row res ('\r' :: c2 :: cs2) =
        parseAux true (cur ++ ['\r']) row res (c2 :: cs2) from by
          simp [parseAux, h2], ih]
      simp [scanSpecAmended, h2]
  | case4 cur row res cs ih =>
    rw [show parseAux false cur row res ('\r' :: '\n' :: cs) =
      parseAux false [] [] (flushRow cur row res) cs from rfl, ih]
    rfl
  | case5 cur row res cs hside ih =>
    cases cs with
    | nil =>
      rw [show parseAux false cur row res ['\r'] =
        parseAux false [] [] (flushRow cur row res) [] from rfl, ih]
      rfl
    | cons c2 cs2 =>
      have h2 : c2 ≠ '\n' := fun h => hside cs2 (by rw [h])
      rw [show parseAux false cur row res ('\r' :: c2 :: cs2) =
        parseAux false [] [] (flushRow cur row res) (c2 :: cs2) from by
          simp [parseAux, h2], ih]
      simp [scanSpecAmended, h2]
  | case6 cur row res cs ih =>
    rw [show parseAux true cur row res ('\n' :: cs) =
      parseAux true (cur ++ ['\n']) row res cs from by cases cs <;> rfl, ih]
    cases cs <;> simp [scanSpecAmended]
  | case7 cur row res cs ih =>
    rw [show parseAux false cur row res ('\n' :: cs) =
      parseAux false [] [] (flushRow cur row res) cs from by cases cs <;> rfl,
      ih]
    cases cs <;> simp [scanSpecAmended]
  | case8 cur row res cs ih =>
    rw [show parseAux true cur row res ('"' :: '"' :: cs) =
      parseAux true (cur ++ ['"']) row res cs from rfl, ih]
    rfl
  | case9 cur row res cs hside ih =>
    cases cs with
    | nil =>
      rw [show parseAux true cur row res ['"'] =
        parseAux false cur row res [] from rfl, ih]
      rfl
    | cons c2 cs2 =>
      have h2 : c2 ≠ '"' := fun h => hside cs2 (by rw [h])
      rw [show parseAux true cur row res ('"' :: c2 :: cs2) =
        parseAux false cur row res (c2 :: cs2) from by simp [parseAux, h2],
        ih]
      simp [scanSpecAmended, h2]
  | case10 cur row res cs ih =>
    rw [show parseAux false cur row res ('"' :: cs) =
      parseAux true cur row res cs from by cases cs <;> rfl, ih]
    cases cs <;> simp [scanSpecAmended]
  | case11 cur row res cs ih =>
    rw [show parseAux true cur row res (',' :: cs) =
      parseAux true (cur ++ [',']) row res cs from by cases cs <;> rfl, ih]
    cases cs <;> simp [scanSpecAmended]
  | case12 cur row res cs ih =>
    rw [show parseAux false cur row res (',' :: cs) =
      parseAux false [] (row ++ [String.mk cur]) res cs from by
        cases cs <;> rfl, ih]
    cases cs <;> simp [scanSpecAmended]
  | case13 iq cur row res c cs w1 w2 w3 w4 w5 w6 w7 w8 w9 w10 w11 ih =>
    have h1 : c ≠ '\r' := by
      cases iq
      · exact fun h => w4 rfl h
      · exact fun h => w2 rfl h
    have h2 : c ≠ '\n' := by
      cases iq
      · exact fun h => w6 rfl h
      · exact fun h => w5 rfl h
    have h3 : c ≠ '"' := by
      cases iq
      · exact fun h => w9 rfl h
      · exact fun h => w8 rfl h
    have h4 : c ≠ ',' := by
      cases iq
      · exact fun h => w11 rfl h
      · exact fun h => w10 rfl h
    rw [parseAux_plain _ _ _ _ _ _ h1 h2 h3 h4, ih,
      scanSpecAmended_plain _ _ _ _ _ _ h1 h2 h3 h4]

/-- Counterexample to claim C7 as stated: inside quotes the code keeps
only the CR of a CR–LF pair (the LF-skip sits outside the quote check),
while the claimed scan keeps both characters as field data. -/
theorem c7_crlf_in_quotes_counterexample :
    parseCSV "\"a\r\nb\"" = [["a\rb"]] ∧
      parseSpec "\"a\r\nb\"" = [["a\r\nb"]] ∧
      parseCSV "\"a\r\nb\"" ≠ parseSpec "\"a\r\nb\"" := by
  refine ⟨by decide, by decide, by decide⟩

/-- Claim C7, amended: the parser implements the specified left-to-right
scan with one change — the line feed of a CR–LF pair is skipped even
inside quotes, where only the CR is kept as data — and on the claim's
example input it yields exactly one row `["a", "b,c"]`. -/
theorem c7_parse_implements_amended_scan :
    (∀ text, parseCSV text = parseSpecAmended text) ∧
      parseCSV "a,\"b,c\"\n" = [["a", "b,c"]] :=
  ⟨fun text => parseAux_eq_scanSpecAmended false [] [] [] text.data,
    by decide⟩

/-! ## Claim C1: export–import round trip -/

/-- Character data of a quoted cell, split for the scan. -/
theorem quoteCell_data_append (v : String) (cs : List Char) :
    (quoteCell v).data ++ cs = '"' :: (escapeQuotes v.data ++ ('"' :: cs)) := by
  have hq : ("\"" : String).data = ['"'] := rfl
  simp [quoteCell, String.data_append, hq]

/-- Scanning a quoted cell accumulates exactly the cell's value, when the
value is CR-free and the cell is followed by a non-quote character. -/
theorem parse_quotedCell (v : String) (hv : '\r' ∉ v.data) (cur : List Char)
    (row : List String) (res : List (List String)) (cs : List Char)
    (hcs : cs.head? ≠ some '"') :
    parseAux false cur row res ((quoteCell v).data ++ cs) =
      parseAux false (cur ++ v.data) row res cs := by
  rw [quoteCell_data_append, parseAux_openQuote,
    parseAux_quotedData v.data hv, parseAux_closeQuote _ _ _ _ hcs]

/-- Scanning the header line of the export emits the five header cells as
the first row. -/
theorem parse_headerLine (cs : List Char) :
    parseAux false [] [] [] (csvHeader.data ++ '\n' :: cs) =
      parseAux false [] []
        [["title", "category", "mnemonic", "lyrics", "mediaLink"]] cs := by
  have hsplit : csvHeader.data ++ '\n' :: cs =
      "title".data ++ (',' :: ("category".data ++ (',' :: ("mnemonic".data ++
        (',' :: ("lyrics".data ++ (',' :: ("mediaLink".data ++
          ('\n' :: cs))))))))) := rfl
  rw [hsplit,
    parseAux_plainToken "title".data (by decide),
    parseAux_comma_out,
    parseAux_plainToken "category".data (by decide),
    parseAux_comma_out,
    parseAux_plainToken "mnemonic".data (by decide),
    parseAux_comma_out,
    parseAux_plainToken "lyrics".data (by decide),
    parseAux_comma_out,
    parseAux_plainToken "mediaLink".data (by decide),
    parseAux_newline_out]
  congr 1

/-- Parsing the export of a single song yields the header row and the
five field values, provided the values are CR-free and the category is a
plain token. -/
theorem parseCSV_export_single (s : Song)
    (ht : '\r' ∉ s.title.data)
    (hm : '\r' ∉ (s.mnemonic.getD "").data)
    (hl : '\r' ∉ (s.lyrics.getD "").data)
    (hml : '\r' ∉ (s.mediaLink.getD "").data)
    (hcat : ∀ c ∈ s.category.data, c ≠ '\r' ∧ c ≠ '\n' ∧ c ≠ '"' ∧ c ≠ ',') :
    parseCSV (handleExport [s]) =
      [["title", "category", "mnemonic", "lyrics", "mediaLink"],
       [s.title, s.category, s.mnemonic.getD "", s.lyrics.getD "",
        s.mediaLink.getD ""]] := by
  unfold parseCSV
  have hnl : ("\n" : String).data = ['\n'] := rfl
  have hcm : ("," : String).data = [','] := rfl
  have hdata : (handleExport [s]).data =
      csvHeader.data ++ '\n' :: ((quoteCell s.title).data ++ ',' ::
        (s.category.data ++ ',' :: ((quoteCell (s.mnemonic.getD "")).data ++
          ',' :: ((quoteCell (s.lyrics.getD "")).data ++ ',' ::
            ((quoteCell (s.mediaLink.getD "")).data ++ []))))) := by
    show ((csvHeader ++ "\n") ++ (quoteCell s.title ++ "," ++ s.category ++
      "," ++ quoteCell (s.mnemonic.getD "") ++ "," ++
      quoteCell (s.lyrics.getD "") ++ "," ++
      quoteCell (s.mediaLink.getD ""))).data = _
    simp [String.data_append, hnl, hcm]
  rw [hdata, parse_headerLine,
    parse_quotedCell _ ht _ _ _ _ (by simp),
    parseAux_comma_out,
    parseAux_plainToken _ hcat,
    parseAux_comma_out,
    parse_quotedCell _ hm _ _ _ _ (by simp),
    parseAux_comma_out,
    parse_quotedCell _ hl _ _ _ _ (by simp),
    parseAux_comma_out,
    parse_quotedCell _ hml _ _ _ _ (by simp),
    parseAux_nil]
  simp [flushRow, string_mk_data]

/-- Counterexample to claim C1 as stated: a song whose mediaLink is the
plain string `u` does not round-trip — the import writes the value under
the lowercased key `medialink`, so the canonical `mediaLink` field of the
re-imported record is absent — and a song whose mnemonic is one double
quote loses it to the secondary un-quoting pass. -/
theorem c1_not_round_trip :
    roundTripsC1 ⟨"a", "angola", none, none, some "u"⟩ = false ∧
      roundTripsC1 ⟨"x", "angola", some "\"", none, none⟩ = false := by
  refine ⟨by decide, by decide⟩

/-- Claim C1, amended: for a song whose field values contain no carriage
return, do not begin or end with a double quote and contain no doubled
double quote (commas, line feeds and lone interior quotes are allowed),
whose category is one of the three valid values, and whose title or
mnemonic is non-empty, the export–import round trip returns the title,
category, mnemonic and lyrics byte for byte under their own keys, and the
mediaLink value byte for byte under the lowercased key `medialink`, the
canonical `mediaLink` key being absent. -/
theorem c1_round_trip_amended (s : Song)
    (ht : cleanValue s.title) (hm : cleanValue (s.mnemonic.getD ""))
    (hl : cleanValue (s.lyrics.getD ""))
    (hml : cleanValue (s.mediaLink.getD ""))
    (hcat : s.category ∈ validCategories)
    (hpres : ¬(s.title = "" ∧ s.mnemonic.getD "" = "")) :
    (handleFileChange (handleExport [s])).map (List.map canonicalFields) =
      .ok [⟨some s.title, some s.category, some (s.mnemonic.getD ""),
        some (s.lyrics.getD ""), some (s.mediaLink.getD ""), none⟩] := by
  obtain ⟨ht1, ht2, ht3, ht4⟩ := ht
  obtain ⟨hm1, hm2, hm3, hm4⟩ := hm
  obtain ⟨hl1, hl2, hl3, hl4⟩ := hl
  obtain ⟨hml1, hml2, hml3, hml4⟩ := hml
  have hcat3 : s.category = "angola" ∨ s.category = "saoBentoPequeno" ∨
      s.category = "saoBentoGrande" := by
    simpa [validCategories] using hcat
  have hcatplain : ∀ c ∈ s.category.data,
      c ≠ '\r' ∧ c ≠ '\n' ∧ c ≠ '"' ∧ c ≠ ',' := by
    rcases hcat3 with h | h | h <;> rw [h] <;> decide
  have hrows := parseCSV_export_single s ht4 hm4 hl4 hml4 hcatplain
  have hut : unquoteValue s.title = s.title :=
    unquoteValue_eq_self _ ht1 ht2 ht3
  have hum : unquoteValue (s.mnemonic.getD "") = s.mnemonic.getD "" :=
    unquoteValue_eq_self _ hm1 hm2 hm3
  have hul : unquoteValue (s.lyrics.getD "") = s.lyrics.getD "" :=
    unquoteValue_eq_self _ hl1 hl2 hl3
  have huml : unquoteValue (s.mediaLink.getD "") = s.mediaLink.getD "" :=
    unquoteValue_eq_self _ hml1 hml2 hml3
  have hucat : unquoteValue s.category = s.category := by
    rcases hcat3 with h | h | h <;> rw [h] <;> decide
  have hbuild : buildFields ["title", "category", "mnemonic", "lyrics", "medialink"]
      [s.title, s.category, s.mnemonic.getD "", s.lyrics.getD "",
        s.mediaLink.getD ""] =
      [("title", s.title), ("category", s.category),
       ("mnemonic", s.mnemonic.getD ""), ("lyrics", s.lyrics.getD ""),
       ("medialink", s.mediaLink.getD "")] := by
    have h0 : buildFields ["title", "category", "mnemonic", "lyrics", "medialink"]
        [s.title, s.category, s.mnemonic.getD "", s.lyrics.getD "",
          s.mediaLink.getD ""] =
        [("title", unquoteValue s.title), ("category", unquoteValue s.category),
         ("mnemonic", unquoteValue (s.mnemonic.getD "")),
         ("lyrics", unquoteValue (s.lyrics.getD "")),
         ("medialink", unquoteValue (s.mediaLink.getD ""))] := rfl
    rw [h0, hut, hucat, hum, hul, huml]
  have hcatinc : categoryIncluded (some s.category) = true := by
    rcases hcat3 with h | h | h <;> rw [h] <;> decide
  have hck : (!truthy (some s.title) &&
      !truthy (some (s.mnemonic.getD ""))) = false := by
    rcases not_and_or.mp hpres with h | h <;> simp [truthy, h]
  have hmap : mapRow ["title", "category", "mnemonic", "lyrics", "medialink"]
      [s.title, s.category, s.mnemonic.getD "", s.lyrics.getD "",
        s.mediaLink.getD ""] 0 =
      .ok [("title", s.title), ("category", s.category),
        ("mnemonic", s.mnemonic.getD ""), ("lyrics", s.lyrics.getD ""),
        ("medialink", s.mediaLink.getD "")] := by
    simp only [mapRow, hbuild]
    rw [if_neg (by
      rw [show getField [("title", s.title), ("category", s.category),
          ("mnemonic", s.mnemonic.getD ""), ("lyrics", s.lyrics.getD ""),
          ("medialink", s.mediaLink.getD "")] "title" = some s.title from rfl,
        show getField [("title", s.title), ("category", s.category),
          ("mnemonic", s.mnemonic.getD ""), ("lyrics", s.lyrics.getD ""),
          ("medialink", s.mediaLink.getD "")] "mnemonic" =
            some (s.mnemonic.getD "") from rfl]
      simp [hck])]
    rw [if_neg (by
      rw [show getField [("title", s.title), ("category", s.category),
          ("mnemonic", s.mnemonic.getD ""), ("lyrics", s.lyrics.getD ""),
          ("medialink", s.mediaLink.getD "")] "category" =
            some s.category from rfl]
      simp [hcatinc])]
  have hheaders : headerCells
      [["title", "category", "mnemonic", "lyrics", "mediaLink"],
       [s.title, s.category, s.mnemonic.getD "", s.lyrics.getD "",
        s.mediaLink.getD ""]] =
      ["title", "category", "mnemonic", "lyrics", "medialink"] := rfl
  simp only [handleFileChange]
  rw [hrows]
  rw [if_neg (by simp)]
  rw [hheaders]
  rw [if_neg (by decide)]
  show (do
    let song ← mapRow ["title", "category", "mnemonic", "lyrics", "medialink"]
      [s.title, s.category, s.mnemonic.getD "", s.lyrics.getD "",
        s.mediaLink.getD ""] 0
    let songs ← mapRows ["title", "category", "mnemonic", "lyrics", "medialink"]
      [] 1
    pure (song :: songs) : Except String (List SongFields)).map
      (List.map canonicalFields) = _
  rw [hmap]
  rfl

/-- Witness for the amended claim C1 at a concrete song using a comma in
the title, a lone interior quote in the mnemonic and a line feed in the
lyrics: the round trip recovers all values, the mediaLink under the
lowercased key. -/
theorem c1_round_trip_witness :
    cleanValue ("a,b" : String) ∧
      (handleFileChange (handleExport
        [⟨"a,b", "angola", some "x\"y", some "l1\nl2", some "u"⟩])).map
          (List.map canonicalFields) =
        .ok [⟨some "a,b", some "angola", some "x\"y", some "l1\nl2",
          some "u", none⟩] :=
  ⟨by decide,
    c1_round_trip_amended ⟨"a,b", "angola", some "x\"y", some "l1\nl2", some "u"⟩
      (by decide) (by decide) (by decide) (by decide) (by decide) (by decide)⟩

end Capoeira
